import Mathlib

/-!
Shallow embedding of `nipype/config/__init__.py` (nipreps/micro-nipype):
a section-based configuration registry (`_Config.load`, `_Config.get`,
the four concrete sections `logging`, `execution`, `monitoring`, `check`),
the module-level settings-file merge, the `__str__` serializer and the
logging bootstrap `update()`.

A section's class-level state (`cls.__dict__`) is modelled as an
insertion-ordered association list from attribute names to values;
Python `pathlib.Path` objects are modelled as a root flag plus a list of
parts, and the file-system / interpreter environment (home directory,
current working directory) is passed explicitly.
-/

set_option autoImplicit false

namespace NipypeConfig

/-- Python `s.startswith(pre)`, computed structurally on the character
data. -/
def strStartsWith (s pre : String) : Bool := pre.data.isPrefixOf s.data

/-- Python `s.split(sep)` for a one-character separator, computed
structurally on the character data. -/
def splitOnChar (sep : Char) : List Char → List (List Char)
  | [] => [[]]
  | c :: rest =>
    match splitOnChar sep rest with
    | [] => if c = sep then [[], [c]] else [[c]]
    | h :: t => if c = sep then [] :: h :: t else (c :: h) :: t

/-- Python `"/".join(parts)`. -/
def joinParts : List String → String
  | [] => ""
  | [x] => x
  | x :: rest => x ++ "/" ++ joinParts rest

/-- A `pathlib.PurePosixPath`: whether the path is anchored at the root,
and its non-empty, non-`"."` components.  (`PurePosixPath` drops empty
and `"."` components at construction time and keeps `".."`; the rare
double-slash root special case is not modelled.) -/
structure PyPath where
  isAbs : Bool
  parts : List String
deriving DecidableEq, Repr

/-- `pathlib.Path(s)` on a string: split on `/`, drop empty and `"."`
components, anchored iff the string starts with `/`. -/
def parsePath (s : String) : PyPath :=
  { isAbs := strStartsWith s "/"
    parts := ((splitOnChar '/' s.data).map (fun l => String.mk l)).filter
      (fun c => c ≠ "" && c ≠ ".") }

/-- `str(path)` for a `PosixPath`. -/
def pathStr (p : PyPath) : String :=
  if p.isAbs then "/" ++ joinParts p.parts
  else if p.parts = [] then "." else joinParts p.parts

/-- The `/` operator on paths: `p / child`. -/
def pathChild (p : PyPath) (c : String) : PyPath :=
  { isAbs := p.isAbs, parts := p.parts ++ [c] }

/-- `Path.absolute()`: prepend the current working directory when the
path is not already anchored (no `..` resolution, as in `pathlib`). -/
def pathAbs (cwd : PyPath) (p : PyPath) : PyPath :=
  if p.isAbs then p else { isAbs := cwd.isAbs, parts := cwd.parts ++ p.parts }

/-- A path is in the normal form `pathlib` produces: no empty and no
`"."` components. -/
def PyPath.isNormalized (p : PyPath) : Bool :=
  p.parts.all (fun c => c ≠ "" && c ≠ ".")

/-- A Python value as storable in a section: the scalars the settings
use (`bool`, `int`, `str`), `pathlib` paths, tuples of strings (the
`_paths` declaration), and `None`.  No constructor models a Python
callable: the registry's entry points only ever store these data
values. -/
inductive Value where
  | vBool : Bool → Value
  | vInt : Int → Value
  | vStr : String → Value
  | vPath : PyPath → Value
  | vStrs : List String → Value
  | vNone : Value
deriving DecidableEq, Repr

/-- `str(v)` for the stored values (tuples rendered approximately). -/
def pyStr : Value → String
  | .vBool b => if b then "True" else "False"
  | .vInt n => toString n
  | .vStr s => s
  | .vPath p => pathStr p
  | .vStrs l => "(" ++ String.intercalate ", " (l.map (fun s => "(" ++ s ++ ")")) ++ ")"
  | .vNone => "None"

/-- Python truthiness of the stored values. -/
def truthy : Value → Bool
  | .vBool b => b
  | .vInt n => decide (n ≠ 0)
  | .vStr s => decide (s ≠ "")
  | .vPath _ => true
  | .vStrs l => decide (l ≠ [])
  | .vNone => false

/-- `callable(v)`: no stored value is a Python callable (mirrors the
`callable(getattr(cls, k))` check in `_Config.get`, which is never true
for the data values the registry stores). -/
def callableVal : Value → Bool := fun _ => false

/-- A class `__dict__`: insertion-ordered association list. -/
abbrev Dict := List (String × Value)

/-- First-match lookup, as Python attribute lookup on the class itself. -/
def lookupD : Dict → String → Option Value
  | [], _ => none
  | kv :: rest, k => if kv.1 = k then some kv.2 else lookupD rest k

/-- `setattr(cls, k, v)`: replace the slot in place when the key is
present (keeping insertion order), append a new slot otherwise. -/
def setAttrD : Dict → String → Value → Dict
  | [], k, v => [(k, v)]
  | kv :: rest, k, v =>
    if kv.1 = k then (k, v) :: rest else kv :: setAttrD rest k v

/-- The keys of a dict. -/
def keysD (d : Dict) : List String := d.map Prod.fst

/-- A dict has pairwise-distinct keys (true of every Python `dict` and
class `__dict__`). -/
def NodupKeys (d : Dict) : Prop := (keysD d).Nodup

instance decNodupKeys (d : Dict) : Decidable (NodupKeys d) :=
  List.nodupDecidable (keysD d)

/-- `cls._paths`: the concrete sections do not declare `_paths`, so the
lookup falls through to `_Config._paths = tuple()`; a section-level
assignment to `_paths` (a tuple of strings) shadows it.  (Assigning a
non-tuple value to `_paths`, whose Python membership semantics differ,
is not modelled.) -/
def pathsOf (d : Dict) : List String :=
  match lookupD d "_paths" with
  | some (.vStrs l) => l
  | _ => []

/-- Names an empty concrete section responds to via `hasattr` without a
slot of its own: the `_Config` members (`_paths`, `load`, `get`) and the
attributes inherited from `object`/`type` (abridged; besides `mro` they
all begin with a double underscore; read-only slots such as `__dict__`,
for which `setattr` would raise, are left out). -/
def inheritedNames : List String :=
  ["_paths", "load", "get", "mro",
   "__module__", "__qualname__", "__doc__", "__init__", "__name__",
   "__bases__", "__mro__", "__class__", "__call__", "__new__",
   "__hash__", "__eq__", "__ne__", "__lt__", "__le__", "__gt__", "__ge__",
   "__repr__", "__str__", "__setattr__", "__delattr__", "__getattribute__",
   "__dir__", "__sizeof__", "__format__", "__reduce__", "__reduce_ex__",
   "__init_subclass__", "__subclasshook__", "__subclasses__"]

/-- `hasattr(cls, k)`. -/
def hasattrD (d : Dict) (k : String) : Bool :=
  (lookupD d k).isSome || decide (k ∈ inheritedNames)

/-- `Path(v)`: succeeds on strings and paths, raises `TypeError`
otherwise. -/
def pathOfValue : Value → Except String PyPath
  | .vStr s => .ok (parsePath s)
  | .vPath p => .ok p
  | _ => .error "TypeError: argument should be a str or an os.PathLike object"

/-- One iteration of the loop in `_Config.load`:
skip `None` values; convert and store `Path(v).absolute()` for keys in
`cls._paths`; store verbatim for keys the class responds to; drop the
rest. -/
def loadStep (cwd : PyPath) (d : Dict) (k : String) (v : Value) : Except String Dict :=
  if v = .vNone then .ok d
  else if k ∈ pathsOf d then
    match pathOfValue v with
    | .ok p => .ok (setAttrD d k (.vPath (pathAbs cwd p)))
    | .error e => .error e
  else if hasattrD d k then .ok (setAttrD d k v)
  else .ok d

/-- The `for k, v in settings.items()` loop of `_Config.load`. -/
def loadLoop (cwd : PyPath) : Dict → List (String × Value) → Except String Dict
  | d, [] => .ok d
  | d, (k, v) :: rest =>
    match loadStep cwd d k v with
    | .ok d2 => loadLoop cwd d2 rest
    | .error e => .error e

/-- The `if init: try: cls.init() except AttributeError: pass` epilogue
of `_Config.load`.  No section defines `init` and it is not inherited,
so the usual outcome is the caught `AttributeError` (a no-op); if an
`init` attribute had been planted on the section it would hold a data
value, and calling it would raise an uncaught `TypeError`. -/
def runInit (d : Dict) : Except String Dict :=
  match lookupD d "init" with
  | none => .ok d
  | some _ => .error "TypeError: stored value is not callable"

/-- `_Config.load(settings, init)`. -/
def load (cwd : PyPath) (d : Dict) (settings : List (String × Value))
    (initFlag : Bool) : Except String Dict :=
  match loadLoop cwd d settings with
  | .ok d2 => if initFlag then runInit d2 else .ok d2
  | .error e => .error e

/-- The body of `_Config.get`, with the section's `_paths` passed
explicitly: keep non-private, non-`None`, non-callable slots, rendering
path-typed slots through `str`. -/
def getAux (paths : List String) : Dict → Dict
  | [] => []
  | (k, v) :: rest =>
    if strStartsWith k "_" then getAux paths rest
    else if v = .vNone then getAux paths rest
    else if callableVal v then getAux paths rest
    else (k, if k ∈ paths then .vStr (pyStr v) else v) :: getAux paths rest

/-- `_Config.get()`. -/
def get (d : Dict) : Dict := getAux (pathsOf d) d

/-! ## The four concrete sections

`_nipype_home` (the `NIPYPE_CONFIG_DIR` override or `~/.nipype`, made
absolute) and `Path.cwd()` are environment inputs and become explicit
parameters `home` and `cwd`; the eager `mkdir` of `<home>/log` is a
file-system effect outside the model. -/

/-- The `__module__`/`__qualname__`/`__doc__` slots every class body
gets before its own assignments. -/
def dunderSlots (qualname doc : String) : Dict :=
  [("__module__", .vStr "nipype.config"),
   ("__qualname__", .vStr qualname),
   ("__doc__", .vStr doc)]

/-- The settings declared in the body of `class logging`. -/
def loggingSettings (home : PyPath) : Dict :=
  [("interface_level", .vStr "INFO"),
   ("log_directory", .vStr (pathStr (pathChild home "log"))),
   ("log_rotate", .vInt 4),
   ("log_size", .vInt 16384000),
   ("log_to_file", .vBool false),
   ("utils_level", .vStr "INFO"),
   ("workflow_level", .vStr "INFO")]

/-- `logging.__dict__` at declaration time. -/
def loggingInit (home : PyPath) : Dict :=
  dunderSlots "logging" "The logging section." ++ loggingSettings home

/-- The settings declared in the body of `class execution` (the private
`_cwd` slot is listed with the init dict below, not here). -/
def executionSettings (home : PyPath) : Dict :=
  [("check_version", .vBool true),
   ("crashdump_dir", .vStr (pathStr (pathChild home "log"))),
   ("crashfile_format", .vStr "pklz"),
   ("create_report", .vBool true),
   ("hash_method", .vStr "timestamp"),
   ("job_finished_timeout", .vInt 5),
   ("keep_inputs", .vBool false),
   ("local_hash_check", .vBool true),
   ("matplotlib_backend", .vStr "Agg"),
   ("parameterize_dirs", .vBool true),
   ("plugin", .vStr "Linear"),
   ("poll_sleep_duration", .vInt 2),
   ("remove_node_directories", .vBool false),
   ("remove_unnecessary_outputs", .vBool true),
   ("single_thread_matlab", .vBool true),
   ("stop_on_first_crash", .vBool false),
   ("stop_on_first_rerun", .vBool false),
   ("stop_on_unknown_version", .vBool false),
   ("try_hard_link_datasink", .vBool true),
   ("use_relative_paths", .vBool false),
   ("write_provenance", .vBool false),
   ("xvfb_max_wait", .vInt 10)]

/-- `execution.__dict__` at declaration time (`_cwd = Path.cwd().absolute()`). -/
def executionInit (home cwd : PyPath) : Dict :=
  dunderSlots "execution" "The execution section." ++ executionSettings home
    ++ [("_cwd", .vPath cwd)]

/-- The settings declared in the body of `class monitoring`. -/
def monitoringSettings : Dict :=
  [("enabled", .vBool false),
   ("sample_frequency", .vInt 1),
   ("summary_append", .vBool true)]

/-- `monitoring.__dict__` at declaration time. -/
def monitoringInit : Dict :=
  dunderSlots "monitoring" "The monitoring section." ++ monitoringSettings

/-- The settings declared in the body of `class check`. -/
def checkSettings : Dict :=
  [("interval", .vInt 1209600)]

/-- `check.__dict__` at declaration time. -/
def checkInit : Dict :=
  dunderSlots "check" "The check section." ++ checkSettings

/-! ## Persistence bridge: settings-file merge and serialization -/

/-- The four sections' states (the module-level mutable state the
persistence bridge touches). -/
structure ConfigState where
  logging : Dict
  execution : Dict
  monitoring : Dict
  check : Dict
deriving DecidableEq, Repr

/-- All four sections at their declared defaults. -/
def initConfig (home cwd : PyPath) : ConfigState :=
  { logging := loggingInit home
    execution := executionInit home cwd
    monitoring := monitoringInit
    check := checkInit }

/-- What `getattr(sys.modules[__name__], name)` resolves to at merge
time. -/
inductive ModuleBinding where
  | secLogging
  | secExecution
  | secMonitoring
  | secCheck
  | other
deriving DecidableEq, Repr

/-- Module-level attribute lookup at the time the settings file is
merged: the four sections; the other module bindings then in scope
(`os`, `sys`, `Path`, `_nipype_home`, `_Config`, and `loads`, imported
just before the loop); and the module object's own dunder attributes
(abridged list).  Any other name raises `AttributeError`. -/
def moduleAttr (name : String) : Option ModuleBinding :=
  if name = "logging" then some .secLogging
  else if name = "execution" then some .secExecution
  else if name = "monitoring" then some .secMonitoring
  else if name = "check" then some .secCheck
  else if name ∈ ["os", "sys", "Path", "_nipype_home", "_Config", "loads",
                  "__name__", "__doc__", "__package__", "__loader__",
                  "__spec__", "__file__", "__builtins__", "__dict__",
                  "__class__", "__repr__", "__str__", "__dir__"]
  then some .other
  else none

/-- The inner loop of the startup merge: `for key, value in
settings.items(): setattr(section, key, value)` — a direct, trusting
apply with no key filtering and no path conversion. -/
def mergeSettings (d : Dict) : List (String × Value) → Dict
  | [] => d
  | (k, v) :: rest => mergeSettings (setAttrD d k v) rest

/-- The outer loop of the startup merge over the parsed document:
look each top-level name up on the module (raising `AttributeError`
when it is not bound) and apply its table.  A table applied to a
non-section module binding (e.g. `os`) mutates that foreign object and
leaves the four sections unchanged. -/
def mergeDoc (cs : ConfigState) : List (String × Dict) → Except String ConfigState
  | [] => .ok cs
  | (name, settings) :: rest =>
    match moduleAttr name with
    | none => .error ("AttributeError: module has no attribute " ++ name)
    | some .secLogging =>
      mergeDoc { cs with logging := mergeSettings cs.logging settings } rest
    | some .secExecution =>
      mergeDoc { cs with execution := mergeSettings cs.execution settings } rest
    | some .secMonitoring =>
      mergeDoc { cs with monitoring := mergeSettings cs.monitoring settings } rest
    | some .secCheck =>
      mergeDoc { cs with check := mergeSettings cs.check settings } rest
    | some .other => mergeDoc cs rest

/-- The document `__str__` dumps: each section name mapped to its
`get()` output.  `toml.dumps`/`toml.loads` round-trip the scalar values
written here exactly, so the document is modelled as the key/value
structure itself rather than its text. -/
def serialize (cs : ConfigState) : List (String × Dict) :=
  [("logging", get cs.logging),
   ("execution", get cs.execution),
   ("monitoring", get cs.monitoring),
   ("check", get cs.check)]

/-! ## Logging bootstrap (`update()`) -/

/-- A handler attached to the root logger.  The rotating-file handler
keeps its constructor arguments (`RotatingFileHandler` does not
validate `maxBytes`/`backupCount` at construction, so they are carried
verbatim). -/
inductive Handler where
  | stream
  | rotatingFile (file : String) (maxBytes : Value) (backupCount : Value)
deriving DecidableEq, Repr

/-- Whether a handler is the size-based rotating file handler. -/
def Handler.isRotating : Handler → Bool
  | .rotatingFile _ _ _ => true
  | .stream => false

/-- The slice of the `logging` module's process-wide state `update()`
touches: warning capture, the root logger's level and handler list, and
the three `nipype.*` sub-logger levels. -/
structure LogState where
  captureWarnings : Bool
  rootLevel : Nat
  rootHandlers : List Handler
  workflowLevel : Nat
  utilsLevel : Nat
  interfaceLevel : Nat
deriving DecidableEq, Repr

/-- `logging.getLevelName` on a level name, composed with the
`Logger.setLevel` name check: the registered names map to their numeric
levels; anything else makes `setLevel` raise `ValueError`. -/
def getLevelName : String → Option Nat
  | "CRITICAL" => some 50
  | "FATAL" => some 50
  | "ERROR" => some 40
  | "WARNING" => some 30
  | "WARN" => some 30
  | "INFO" => some 20
  | "DEBUG" => some 10
  | "NOTSET" => some 0
  | _ => none

/-- The numeric severity `setLevel(getLevelName(v))` ends up with:
registered names resolve; a registered numeric level round-trips
through its name; everything else raises. -/
def levelOfValue : Value → Option Nat
  | .vStr s => getLevelName s
  | .vInt n =>
    if n = 0 ∨ n = 10 ∨ n = 20 ∨ n = 30 ∨ n = 40 ∨ n = 50
    then some n.toNat else none
  | _ => none

/-- Attribute read `logging.k` on the section (raises `AttributeError`
when the slot is missing, since no setting is inherited). -/
def attrOf (d : Dict) (k : String) : Except String Value :=
  match lookupD d k with
  | some v => .ok v
  | none => .error ("AttributeError: " ++ k)

/-- `setLevel(getLevelName(logging.k))`. -/
def levelAttr (d : Dict) (k : String) : Except String Nat :=
  match attrOf d k with
  | .error e => .error e
  | .ok v =>
    match levelOfValue v with
    | some n => .ok n
    | none => .error "ValueError: unknown level"

/-- `update()`: `captureWarnings(True)`; `basicConfig(level=INFO,
force=True, ...)` which removes every handler previously attached to
the root logger (the prior state is discarded) and installs a single
stream handler; the three sub-logger levels from the current `logging`
section; and, when `logging.log_to_file` is truthy, one
`RotatingFileHandler` on `Path(log_directory) / "nipype.log"` appended
to the root logger. -/
def update (lg : Dict) (_st : LogState) : Except String LogState :=
  match levelAttr lg "workflow_level" with
  | .error e => .error e
  | .ok wl =>
    match levelAttr lg "utils_level" with
    | .error e => .error e
    | .ok ul =>
      match levelAttr lg "interface_level" with
      | .error e => .error e
      | .ok il =>
        match attrOf lg "log_to_file" with
        | .error e => .error e
        | .ok ltf =>
          if truthy ltf then
            match attrOf lg "log_directory" with
            | .error e => .error e
            | .ok dv =>
              match pathOfValue dv with
              | .error e => .error e
              | .ok dirp =>
                match attrOf lg "log_size" with
                | .error e => .error e
                | .ok szv =>
                  match attrOf lg "log_rotate" with
                  | .error e => .error e
                  | .ok rotv =>
                    .ok { captureWarnings := true
                          rootLevel := 20
                          rootHandlers := [Handler.stream,
                            Handler.rotatingFile
                              (pathStr (pathChild dirp "nipype.log")) szv rotv]
                          workflowLevel := wl
                          utilsLevel := ul
                          interfaceLevel := il }
          else
            .ok { captureWarnings := true
                  rootLevel := 20
                  rootHandlers := [Handler.stream]
                  workflowLevel := wl
                  utilsLevel := ul
                  interfaceLevel := il }

/-! ## Reference definitions and reachability -/

/-- The `load` loop specialized to the situation the concrete sections
are in (no path-typed keys): values are either stored verbatim (when
the class responds to the key) or dropped — the path-conversion branch
does not appear. -/
def loadVerbatim (d : Dict) : List (String × Value) → Dict
  | [] => d
  | (k, v) :: rest =>
    if v = .vNone then loadVerbatim d rest
    else if hasattrD d k then loadVerbatim (setAttrD d k v) rest
    else loadVerbatim d rest

/-- Section states reachable from a starting state through the
registry's entry points: completed (prefixes of) `load` loops with any
working directory, and settings-file merges (whose values come from
`toml.loads` and therefore are never `None`). -/
inductive Reachable (d0 : Dict) : Dict → Prop where
  | refl : Reachable d0 d0
  | load (cwd : PyPath) (d d' : Dict) (s : List (String × Value)) :
      Reachable d0 d → loadLoop cwd d s = .ok d' → Reachable d0 d'
  | merge (d : Dict) (s : List (String × Value)) :
      Reachable d0 d → (∀ kv ∈ s, kv.2 ≠ Value.vNone) →
      Reachable d0 (mergeSettings d s)

/-! ## Basic lemmas about the dict operations -/

theorem keysD_cons (kv : String × Value) (d : Dict) :
    keysD (kv :: d) = kv.1 :: keysD d := rfl

theorem nodupKeys_cons (kv : String × Value) (d : Dict) :
    NodupKeys (kv :: d) ↔ kv.1 ∉ keysD d ∧ NodupKeys d := by
  simp [NodupKeys, keysD_cons]

theorem lookupD_setAttrD (d : Dict) (k k' : String) (v : Value) :
    lookupD (setAttrD d k v) k' = if k' = k then some v else lookupD d k' := by
  induction d with
  | nil =>
    simp only [setAttrD, lookupD]
    by_cases h : k' = k
    · simp [h]
    · simp [h, Ne.symm h]
  | cons kv rest ih =>
    simp only [setAttrD]
    by_cases hkv : kv.1 = k
    · by_cases h : k' = k
      · subst h; simp [lookupD, hkv]
      · simp [lookupD, h, hkv, Ne.symm h]
    · simp only [if_neg hkv, lookupD, ih]
      by_cases h : kv.1 = k'
      · have hne : ¬ k' = k := by
          intro hh; exact hkv (h.trans hh)
        simp [h, hne]
      · simp [h]

theorem lookupD_eq_none (d : Dict) (k : String) :
    lookupD d k = none ↔ ∀ kv ∈ d, kv.1 ≠ k := by
  induction d with
  | nil => simp [lookupD]
  | cons kv rest ih =>
    simp only [lookupD]
    by_cases h : kv.1 = k
    · simp [h]
    · simp [h, ih]

theorem lookupD_mem {d : Dict} {k : String} {v : Value}
    (h : lookupD d k = some v) : (k, v) ∈ d := by
  induction d with
  | nil => simp [lookupD] at h
  | cons kv rest ih =>
    simp only [lookupD] at h
    by_cases hk : kv.1 = k
    · rw [if_pos hk] at h
      obtain ⟨a, b⟩ := kv
      simp only at hk
      subst hk
      cases Option.some.inj h
      exact List.mem_cons_self _ _
    · rw [if_neg hk] at h
      exact List.mem_cons_of_mem _ (ih h)

theorem mem_setAttrD {d : Dict} {k : String} {v : Value} {kv' : String × Value}
    (h : kv' ∈ setAttrD d k v) : kv' ∈ d ∨ kv'.2 = v := by
  induction d with
  | nil => simp [setAttrD] at h; simp [h]
  | cons kv rest ih =>
    simp only [setAttrD] at h
    by_cases hk : kv.1 = k
    · rw [if_pos hk] at h
      rcases List.mem_cons.mp h with h1 | h1
      · right; simp [h1]
      · left; exact List.mem_cons_of_mem _ h1
    · rw [if_neg hk] at h
      rcases List.mem_cons.mp h with h1 | h1
      · left; simp [h1]
      · rcases ih h1 with h2 | h2
        · left; exact List.mem_cons_of_mem _ h2
        · right; exact h2

theorem keysD_setAttrD (d : Dict) (k : String) (v : Value) :
    keysD (setAttrD d k v) =
      if (lookupD d k).isSome then keysD d else keysD d ++ [k] := by
  induction d with
  | nil => simp [setAttrD, lookupD, keysD]
  | cons kv rest ih =>
    simp only [setAttrD, lookupD]
    by_cases hk : kv.1 = k
    · simp [hk, keysD_cons]
    · simp only [if_neg hk, keysD_cons, ih]
      by_cases hs : (lookupD rest k).isSome
      · simp [hs]
      · simp [hs]

theorem nodupKeys_setAttrD {d : Dict} (k : String) (v : Value)
    (h : NodupKeys d) : NodupKeys (setAttrD d k v) := by
  unfold NodupKeys
  rw [keysD_setAttrD]
  by_cases hs : (lookupD d k).isSome
  · simpa [hs] using h
  · rw [if_neg hs]
    rw [List.nodup_append]
    refine ⟨h, List.nodup_singleton k, ?_⟩
    intro a ha hb
    simp at hb
    subst hb
    rw [Option.not_isSome_iff_eq_none] at hs
    rcases List.mem_map.mp ha with ⟨kv, hkv, hfst⟩
    exact (lookupD_eq_none d a).mp hs kv hkv hfst

theorem isSome_lookupD_setAttrD {d : Dict} {k' : String}
    (k : String) (v : Value) (h : (lookupD d k').isSome) :
    (lookupD (setAttrD d k v) k').isSome := by
  rw [lookupD_setAttrD]
  by_cases hk : k' = k
  · simp [hk]
  · simpa [hk] using h

/-! ## Lemmas about the load loop -/

theorem loadStep_shape {cwd : PyPath} {d d2 : Dict} {k : String} {v : Value}
    (h : loadStep cwd d k v = .ok d2) :
    d2 = d ∨ ∃ w, w ≠ Value.vNone ∧ d2 = setAttrD d k w := by
  unfold loadStep at h
  by_cases hv : v = Value.vNone
  · rw [if_pos hv] at h
    exact Or.inl (Except.ok.inj h).symm
  · rw [if_neg hv] at h
    by_cases hp : k ∈ pathsOf d
    · rw [if_pos hp] at h
      cases hpv : pathOfValue v with
      | ok p =>
        rw [hpv] at h
        refine Or.inr ⟨Value.vPath (pathAbs cwd p), by simp, ?_⟩
        exact (Except.ok.inj h).symm
      | error e => rw [hpv] at h; cases h
    · rw [if_neg hp] at h
      by_cases hh : hasattrD d k
      · rw [if_pos hh] at h
        exact Or.inr ⟨v, hv, (Except.ok.inj h).symm⟩
      · rw [if_neg hh] at h
        exact Or.inl (Except.ok.inj h).symm

theorem lookupD_loadStep_of_ne {cwd : PyPath} {d d2 : Dict} {k k' : String} {v : Value}
    (hne : k ≠ k') (h : loadStep cwd d k v = .ok d2) :
    lookupD d2 k' = lookupD d k' := by
  rcases loadStep_shape h with h1 | ⟨w, _, h1⟩
  · rw [h1]
  · rw [h1, lookupD_setAttrD, if_neg (Ne.symm hne)]

theorem pathsOf_loadStep {cwd : PyPath} {d d2 : Dict} {k : String} {v : Value}
    (hne : k ≠ "_paths") (h : loadStep cwd d k v = .ok d2) :
    pathsOf d2 = pathsOf d := by
  unfold pathsOf
  rw [lookupD_loadStep_of_ne hne h]

theorem lookupD_loadLoop_of_not_mem {cwd : PyPath} {s : List (String × Value)}
    {k : String} :
    ∀ {d d' : Dict}, (∀ kv ∈ s, kv.1 ≠ k) → loadLoop cwd d s = .ok d' →
      lookupD d' k = lookupD d k := by
  induction s with
  | nil =>
    intro d d' _ h
    cases Except.ok.inj h
    rfl
  | cons kv rest ih =>
    intro d d' hk h
    obtain ⟨k1, v1⟩ := kv
    simp only [loadLoop] at h
    cases hstep : loadStep cwd d k1 v1 with
    | ok d2 =>
      rw [hstep] at h
      have h1 : k1 ≠ k := hk (k1, v1) (List.mem_cons_self _ _)
      rw [ih (fun kv hkv => hk kv (List.mem_cons_of_mem _ hkv)) h]
      exact lookupD_loadStep_of_ne h1 hstep
    | error e => rw [hstep] at h; cases h

theorem valsNoNone_loadLoop {cwd : PyPath} {s : List (String × Value)} :
    ∀ {d d' : Dict}, (∀ kv ∈ d, kv.2 ≠ Value.vNone) → loadLoop cwd d s = .ok d' →
      ∀ kv ∈ d', kv.2 ≠ Value.vNone := by
  induction s with
  | nil =>
    intro d d' hd h
    cases Except.ok.inj h
    exact hd
  | cons kv rest ih =>
    intro d d' hd h
    obtain ⟨k1, v1⟩ := kv
    simp only [loadLoop] at h
    cases hstep : loadStep cwd d k1 v1 with
    | ok d2 =>
      rw [hstep] at h
      refine ih ?_ h
      rcases loadStep_shape hstep with h1 | ⟨w, hw, h1⟩
      · rw [h1]; exact hd
      · rw [h1]
        intro kv' hkv'
        rcases mem_setAttrD hkv' with h2 | h2
        · exact hd kv' h2
        · rw [h2]; exact hw
    | error e => rw [hstep] at h; cases h

theorem isSome_loadLoop {cwd : PyPath} {s : List (String × Value)} {k : String} :
    ∀ {d d' : Dict}, (lookupD d k).isSome → loadLoop cwd d s = .ok d' →
      (lookupD d' k).isSome := by
  induction s with
  | nil =>
    intro d d' hd h
    cases Except.ok.inj h
    exact hd
  | cons kv rest ih =>
    intro d d' hd h
    obtain ⟨k1, v1⟩ := kv
    simp only [loadLoop] at h
    cases hstep : loadStep cwd d k1 v1 with
    | ok d2 =>
      rw [hstep] at h
      refine ih ?_ h
      rcases loadStep_shape hstep with h1 | ⟨w, _, h1⟩
      · rw [h1]; exact hd
      · rw [h1]; exact isSome_lookupD_setAttrD _ _ hd
    | error e => rw [hstep] at h; cases h

theorem nodupKeys_loadLoop {cwd : PyPath} {s : List (String × Value)} :
    ∀ {d d' : Dict}, NodupKeys d → loadLoop cwd d s = .ok d' → NodupKeys d' := by
  induction s with
  | nil =>
    intro d d' hd h
    cases Except.ok.inj h
    exact hd
  | cons kv rest ih =>
    intro d d' hd h
    obtain ⟨k1, v1⟩ := kv
    simp only [loadLoop] at h
    cases hstep : loadStep cwd d k1 v1 with
    | ok d2 =>
      rw [hstep] at h
      refine ih ?_ h
      rcases loadStep_shape hstep with h1 | ⟨w, _, h1⟩
      · rw [h1]; exact hd
      · rw [h1]; exact nodupKeys_setAttrD _ _ hd
    | error e => rw [hstep] at h; cases h

/-! ## Lemmas about the settings-file merge -/

theorem lookupD_mergeSettings_of_not_mem {s : List (String × Value)} {k : String} :
    ∀ {d : Dict}, (∀ kv ∈ s, kv.1 ≠ k) →
      lookupD (mergeSettings d s) k = lookupD d k := by
  induction s with
  | nil => intro d _; rfl
  | cons kv rest ih =>
    intro d hk
    obtain ⟨k1, v1⟩ := kv
    simp only [mergeSettings]
    rw [ih (fun kv hkv => hk kv (List.mem_cons_of_mem _ hkv))]
    rw [lookupD_setAttrD]
    have h1 : k1 ≠ k := hk (k1, v1) (List.mem_cons_self _ _)
    rw [if_neg (Ne.symm h1)]

theorem lookupD_mergeSettings_mem {s : List (String × Value)} {k : String} {v : Value} :
    ∀ {d : Dict}, NodupKeys s → (k, v) ∈ s →
      lookupD (mergeSettings d s) k = some v := by
  induction s with
  | nil => intro d _ h; cases h
  | cons kv rest ih =>
    intro d hnd hm
    obtain ⟨k1, v1⟩ := kv
    rcases (nodupKeys_cons _ _).mp hnd with ⟨hk1, hrest⟩
    simp only [mergeSettings]
    rcases List.mem_cons.mp hm with h1 | h1
    · cases h1
      rw [lookupD_mergeSettings_of_not_mem]
      · rw [lookupD_setAttrD, if_pos rfl]
      · intro kv hkv hkk
        exact hk1 (by
          rw [← hkk]
          exact List.mem_map.mpr ⟨kv, hkv, rfl⟩)
    · exact ih hrest h1

theorem isSome_mergeSettings {s : List (String × Value)} {k : String} :
    ∀ {d : Dict}, (lookupD d k).isSome →
      (lookupD (mergeSettings d s) k).isSome := by
  induction s with
  | nil => intro d h; exact h
  | cons kv rest ih =>
    intro d h
    simp only [mergeSettings]
    exact ih (isSome_lookupD_setAttrD _ _ h)

theorem nodupKeys_mergeSettings {s : List (String × Value)} :
    ∀ {d : Dict}, NodupKeys d → NodupKeys (mergeSettings d s) := by
  induction s with
  | nil => intro d h; exact h
  | cons kv rest ih =>
    intro d h
    simp only [mergeSettings]
    exact ih (nodupKeys_setAttrD _ _ h)

theorem valsNoNone_mergeSettings {s : List (String × Value)} :
    ∀ {d : Dict}, (∀ kv ∈ d, kv.2 ≠ Value.vNone) →
      (∀ kv ∈ s, kv.2 ≠ Value.vNone) →
      ∀ kv ∈ mergeSettings d s, kv.2 ≠ Value.vNone := by
  induction s with
  | nil => intro d hd _; exact hd
  | cons kv rest ih =>
    intro d hd hs
    obtain ⟨k1, v1⟩ := kv
    simp only [mergeSettings]
    refine ih ?_ (fun kv hkv => hs kv (List.mem_cons_of_mem _ hkv))
    intro kv' hkv'
    rcases mem_setAttrD hkv' with h2 | h2
    · exact hd kv' h2
    · rw [h2]
      exact hs (k1, v1) (List.mem_cons_self _ _)

/-! ## Lemmas about `get` -/

theorem keysD_getAux_sublist (P : List String) (d : Dict) :
    (keysD (getAux P d)).Sublist (keysD d) := by
  induction d with
  | nil => simp [getAux, keysD]
  | cons kv rest ih =>
    obtain ⟨k, v⟩ := kv
    simp only [getAux]
    by_cases h1 : strStartsWith k "_"
    · rw [if_pos h1, keysD_cons]
      exact ih.cons _
    · rw [if_neg h1]
      by_cases h2 : v = Value.vNone
      · rw [if_pos h2, keysD_cons]
        exact ih.cons _
      · rw [if_neg h2]
        simp only [callableVal, if_neg Bool.false_ne_true, keysD_cons]
        exact ih.cons₂ _

theorem nodupKeys_getAux {P : List String} {d : Dict} (h : NodupKeys d) :
    NodupKeys (getAux P d) := by
  exact List.Nodup.sublist (keysD_getAux_sublist P d) h

theorem lookupD_getAux_underscore {P : List String} {k : String}
    (hk : strStartsWith k "_" = true) :
    ∀ d : Dict, lookupD (getAux P d) k = none := by
  intro d
  induction d with
  | nil => rfl
  | cons kv rest ih =>
    obtain ⟨k1, v1⟩ := kv
    simp only [getAux]
    by_cases h1 : strStartsWith k1 "_"
    · rw [if_pos h1]; exact ih
    · rw [if_neg h1]
      by_cases h2 : v1 = Value.vNone
      · rw [if_pos h2]; exact ih
      · rw [if_neg h2]
        simp only [callableVal, if_neg Bool.false_ne_true, lookupD]
        have : k1 ≠ k := by
          intro hh; rw [hh] at h1; exact h1 hk
        rw [if_neg this]
        exact ih

theorem lookupD_getAux_of_none {P : List String} {k : String} :
    ∀ {d : Dict}, lookupD d k = none → lookupD (getAux P d) k = none := by
  intro d
  induction d with
  | nil => intro _; rfl
  | cons kv rest ih =>
    intro h
    obtain ⟨k1, v1⟩ := kv
    simp only [lookupD] at h
    by_cases hk1 : k1 = k
    · rw [if_pos hk1] at h; cases h
    · rw [if_neg hk1] at h
      simp only [getAux]
      by_cases h1 : strStartsWith k1 "_"
      · rw [if_pos h1]; exact ih h
      · rw [if_neg h1]
        by_cases h2 : v1 = Value.vNone
        · rw [if_pos h2]; exact ih h
        · rw [if_neg h2]
          simp only [callableVal, if_neg Bool.false_ne_true, lookupD]
          rw [if_neg hk1]
          exact ih h

theorem lookupD_getAux_of_some {P : List String} {k : String} {v : Value} :
    ∀ {d : Dict}, NodupKeys d → lookupD d k = some v →
      strStartsWith k "_" = false → v ≠ Value.vNone →
      lookupD (getAux P d) k =
        some (if k ∈ P then Value.vStr (pyStr v) else v) := by
  intro d
  induction d with
  | nil => intro _ h; cases h
  | cons kv rest ih =>
    intro hnd h hk hv
    obtain ⟨k1, v1⟩ := kv
    rcases (nodupKeys_cons _ _).mp hnd with ⟨_, hrest⟩
    simp only [lookupD] at h
    by_cases hk1 : k1 = k
    · rw [if_pos hk1] at h
      cases Option.some.inj h
      subst hk1
      simp only [getAux]
      rw [if_neg (by simp [hk]), if_neg hv]
      simp only [callableVal, if_neg Bool.false_ne_true, lookupD]
      simp
    · rw [if_neg hk1] at h
      simp only [getAux]
      by_cases h1 : strStartsWith k1 "_"
      · rw [if_pos h1]; exact ih hrest h hk hv
      · rw [if_neg h1]
        by_cases h2 : v1 = Value.vNone
        · rw [if_pos h2]; exact ih hrest h hk hv
        · rw [if_neg h2]
          simp only [callableVal, if_neg Bool.false_ne_true, lookupD]
          rw [if_neg hk1]
          exact ih hrest h hk hv

theorem lookupD_getAux_of_vNone {P : List String} {k : String} :
    ∀ {d : Dict}, NodupKeys d → lookupD d k = some Value.vNone →
      lookupD (getAux P d) k = none := by
  intro d
  induction d with
  | nil => intro _ h; cases h
  | cons kv rest ih =>
    intro hnd h
    obtain ⟨k1, v1⟩ := kv
    rcases (nodupKeys_cons _ _).mp hnd with ⟨hk1r, hrest⟩
    simp only [lookupD] at h
    by_cases hk1 : k1 = k
    · rw [if_pos hk1] at h
      cases Option.some.inj h
      simp only [getAux]
      by_cases h1 : strStartsWith k1 "_"
      · rw [if_pos h1]
        refine lookupD_getAux_of_none ?_
        rw [lookupD_eq_none]
        intro kv hkv hkk
        subst hk1
        exact hk1r (List.mem_map.mpr ⟨kv, hkv, hkk⟩)
      · rw [if_neg h1, if_pos trivial]
        refine lookupD_getAux_of_none ?_
        rw [lookupD_eq_none]
        intro kv hkv hkk
        subst hk1
        exact hk1r (List.mem_map.mpr ⟨kv, hkv, hkk⟩)
    · rw [if_neg hk1] at h
      simp only [getAux]
      by_cases h1 : strStartsWith k1 "_"
      · rw [if_pos h1]; exact ih hrest h
      · rw [if_neg h1]
        by_cases h2 : v1 = Value.vNone
        · rw [if_pos h2]; exact ih hrest h
        · rw [if_neg h2]
          simp only [callableVal, if_neg Bool.false_ne_true, lookupD]
          rw [if_neg hk1]
          exact ih hrest h

theorem mem_getAux {P : List String} {k : String} {w : Value} :
    ∀ {d : Dict}, (k, w) ∈ getAux P d →
      ∃ v, (k, v) ∈ d ∧ v ≠ Value.vNone ∧ strStartsWith k "_" = false ∧
        w = (if k ∈ P then Value.vStr (pyStr v) else v) := by
  intro d
  induction d with
  | nil => intro h; cases h
  | cons kv rest ih =>
    intro h
    obtain ⟨k1, v1⟩ := kv
    simp only [getAux] at h
    by_cases h1 : strStartsWith k1 "_"
    · rw [if_pos h1] at h
      rcases ih h with ⟨v, hv⟩
      exact ⟨v, List.mem_cons_of_mem _ hv.1, hv.2.1, hv.2.2⟩
    · rw [if_neg h1] at h
      by_cases h2 : v1 = Value.vNone
      · rw [if_pos h2] at h
        rcases ih h with ⟨v, hv⟩
        exact ⟨v, List.mem_cons_of_mem _ hv.1, hv.2.1, hv.2.2⟩
      · rw [if_neg h2] at h
        simp only [callableVal, if_neg Bool.false_ne_true] at h
        rcases List.mem_cons.mp h with h3 | h3
        · have hk1 : k1 = k := congrArg Prod.fst h3.symm
          subst hk1
          refine ⟨v1, List.mem_cons_self _ _, h2, ?_, ?_⟩
          · simp [h1]
          · exact (congrArg Prod.snd h3.symm).symm
        · rcases ih h3 with ⟨v, hv⟩
          exact ⟨v, List.mem_cons_of_mem _ hv.1, hv.2.1, hv.2.2⟩

theorem lookupD_get_ne_vNone {d : Dict} {k : String} {w : Value}
    (h : lookupD (get d) k = some w) : w ≠ Value.vNone := by
  rcases mem_getAux (lookupD_mem h) with ⟨v, _, hv, _, hw⟩
  rw [hw]
  by_cases hp : k ∈ pathsOf d
  · simp [hp]
  · simpa [hp] using hv

/-! ## Path normalization lemmas -/

theorem isNormalized_parsePath (s : String) :
    (parsePath s).isNormalized = true := by
  simp only [parsePath, PyPath.isNormalized, List.all_eq_true]
  intro c hc
  exact (List.mem_filter.mp hc).2

theorem isAbs_pathAbs {cwd : PyPath} (p : PyPath) (hc : cwd.isAbs = true) :
    (pathAbs cwd p).isAbs = true := by
  unfold pathAbs
  by_cases h : p.isAbs <;> simp [h, hc]

theorem isNormalized_pathAbs {cwd p : PyPath} (hc : cwd.isNormalized = true)
    (hp : p.isNormalized = true) : (pathAbs cwd p).isNormalized = true := by
  unfold pathAbs
  by_cases h : p.isAbs
  · simpa [h] using hp
  · rw [if_neg h]
    unfold PyPath.isNormalized at hc hp ⊢
    simp only [List.all_append, Bool.and_eq_true]
    exact ⟨hc, hp⟩

/-! ## C1: path-typed overrides are stored as absolute, normalized paths -/

theorem loadLoop_path_key {cwd : PyPath} {k strv : String} :
    ∀ {s : List (String × Value)} {d d' : Dict},
      NodupKeys s → (∀ kv ∈ s, kv.1 ≠ "_paths") →
      (k, Value.vStr strv) ∈ s → k ∈ pathsOf d →
      loadLoop cwd d s = .ok d' →
      lookupD d' k = some (Value.vPath (pathAbs cwd (parsePath strv))) := by
  intro s
  induction s with
  | nil => intro d d' _ _ hm; cases hm
  | cons kv rest ih =>
    intro d d' hnd hnp hm hp h
    obtain ⟨k1, v1⟩ := kv
    rcases (nodupKeys_cons _ _).mp hnd with ⟨hk1r, hrest⟩
    simp only [loadLoop] at h
    rcases List.mem_cons.mp hm with h1 | h1
    · have hk1 : k1 = k := (congrArg Prod.fst h1).symm
      have hv1 : v1 = Value.vStr strv := (congrArg Prod.snd h1).symm
      subst hk1; subst hv1
      rw [show loadStep cwd d k1 (Value.vStr strv)
            = .ok (setAttrD d k1 (Value.vPath (pathAbs cwd (parsePath strv)))) by
          unfold loadStep
          rw [if_neg (by simp), if_pos hp]
          rfl] at h
      have hrk : ∀ kv ∈ rest, kv.1 ≠ k1 := by
        intro kv hkv hkk
        exact hk1r (List.mem_map.mpr ⟨kv, hkv, hkk⟩)
      rw [lookupD_loadLoop_of_not_mem hrk h, lookupD_setAttrD, if_pos rfl]
    · cases hstep : loadStep cwd d k1 v1 with
      | ok d2 =>
        rw [hstep] at h
        have hps : pathsOf d2 = pathsOf d :=
          pathsOf_loadStep (hnp (k1, v1) (List.mem_cons_self _ _)) hstep
        exact ih hrest (fun kv hkv => hnp kv (List.mem_cons_of_mem _ hkv)) h1
          (by rw [hps]; exact hp) h
      | error e => rw [hstep] at h; cases h

/-- C1: for any section state declaring `k` path-typed and any override
dictionary supplying a string value for `k`, a successful `load` leaves
the section's `k` attribute holding an absolute, normalized path.  (The
override dictionary has distinct keys, as every Python `dict` does, and
does not itself reassign the private `_paths` declaration.) -/
theorem load_path_typed_stores_absolute_normalized
    (cwd : PyPath) (d : Dict) (s : List (String × Value))
    (k strv : String) (d' : Dict)
    (hcwdA : cwd.isAbs = true) (hcwdN : cwd.isNormalized = true)
    (hnd : NodupKeys s) (hnp : ∀ kv ∈ s, kv.1 ≠ "_paths")
    (hm : (k, Value.vStr strv) ∈ s) (hp : k ∈ pathsOf d)
    (h : load cwd d s true = .ok d') :
    ∃ p : PyPath, lookupD d' k = some (Value.vPath p) ∧
      p.isAbs = true ∧ p.isNormalized = true := by
  unfold load at h
  cases hl : loadLoop cwd d s with
  | ok d2 =>
    rw [hl] at h
    have hd2 : d' = d2 := by
      simp only [if_true, runInit] at h
      cases hi : lookupD d2 "init" with
      | none => rw [hi] at h; exact (Except.ok.inj h).symm
      | some v => rw [hi] at h; cases h
    subst hd2
    exact ⟨pathAbs cwd (parsePath strv), loadLoop_path_key hnd hnp hm hp hl,
      isAbs_pathAbs _ hcwdA, isNormalized_pathAbs hcwdN (isNormalized_parsePath strv)⟩
  | error e => rw [hl] at h; cases h

/-- C1 witness: a concrete path-typed section state and a relative-path
override. -/
theorem load_path_typed_stores_absolute_normalized_witness :
    ∃ p : PyPath,
      lookupD [("_paths", Value.vStrs ["crashdump_dir"]),
               ("crashdump_dir",
                Value.vPath { isAbs := true, parts := ["wd", "relative", "path"] })]
        "crashdump_dir" = some (Value.vPath p) ∧
      p.isAbs = true ∧ p.isNormalized = true :=
  load_path_typed_stores_absolute_normalized
    { isAbs := true, parts := ["wd"] }
    [("_paths", Value.vStrs ["crashdump_dir"]), ("crashdump_dir", Value.vStr "/old")]
    [("crashdump_dir", Value.vStr "relative/path")]
    "crashdump_dir" "relative/path"
    [("_paths", Value.vStrs ["crashdump_dir"]),
     ("crashdump_dir",
      Value.vPath { isAbs := true, parts := ["wd", "relative", "path"] })]
    rfl rfl (by decide) (by decide) (by decide) (by decide) rfl

/-! ## C2: the concrete sections declare no path-typed settings -/

theorem loadLoop_eq_verbatim {cwd : PyPath} :
    ∀ {s : List (String × Value)} {d : Dict}, pathsOf d = [] →
      (∀ kv ∈ s, kv.1 ≠ "_paths") →
      loadLoop cwd d s = .ok (loadVerbatim d s) := by
  intro s
  induction s with
  | nil => intro d _ _; rfl
  | cons kv rest ih =>
    intro d hp hs
    obtain ⟨k1, v1⟩ := kv
    have h1 : k1 ≠ "_paths" := hs (k1, v1) (List.mem_cons_self _ _)
    have hrest : ∀ kv ∈ rest, kv.1 ≠ "_paths" :=
      fun kv hkv => hs kv (List.mem_cons_of_mem _ hkv)
    by_cases hv : v1 = Value.vNone
    · have hstep : loadStep cwd d k1 v1 = .ok d := by
        unfold loadStep; rw [if_pos hv]
      simp only [loadLoop, hstep, loadVerbatim, if_pos hv]
      exact ih hp hrest
    · by_cases hh : hasattrD d k1 = true
      · have hstep : loadStep cwd d k1 v1 = .ok (setAttrD d k1 v1) := by
          unfold loadStep
          rw [if_neg hv, if_neg (by simp [hp]), if_pos hh]
        simp only [loadLoop, hstep, loadVerbatim, if_neg hv, if_pos hh]
        refine ih ?_ hrest
        unfold pathsOf
        rw [lookupD_setAttrD, if_neg (Ne.symm h1)]
        exact hp
      · have hstep : loadStep cwd d k1 v1 = .ok d := by
          unfold loadStep
          rw [if_neg hv, if_neg (by simp [hp]), if_neg hh]
        simp only [loadLoop, hstep, loadVerbatim, if_neg hv, if_neg hh]
        exact ih hp hrest

/-- C2 counterexample: as literally stated ("for every override
dictionary the path-conversion branch of load is never taken and every
accepted value is assigned verbatim"), the claim fails — an override
dictionary that first reassigns the inherited private `_paths`
declaration makes the very same `load` call take the path branch on a
later key, which is then stored as a converted absolute `Path`, not
verbatim. -/
theorem load_paths_override_takes_path_branch :
    ∃ d' : Dict,
      load { isAbs := true, parts := ["w"] }
          (loggingInit { isAbs := true, parts := ["h"] })
          [("_paths", Value.vStrs ["log_to_file"]), ("log_to_file", Value.vStr "x")]
          false = .ok d' ∧
      lookupD d' "log_to_file"
        = some (Value.vPath { isAbs := true, parts := ["w", "x"] }) ∧
      lookupD d' "log_to_file" ≠ some (Value.vStr "x") :=
  ⟨_, rfl, by decide, by decide⟩

/-- C2 (amended): each of the four concrete sections starts with
`_paths` empty, and for every override dictionary that does not itself
reassign the private `_paths` attribute, `load` never takes the
path-conversion branch: it behaves exactly like the verbatim-assignment
loop `loadVerbatim`, which stores accepted values unchanged and never
constructs a `Path`. -/
theorem sections_have_no_path_typed_settings
    (home cwd cwd' : PyPath) (d : Dict)
    (hd : d ∈ [loggingInit home, executionInit home cwd, monitoringInit, checkInit])
    (s : List (String × Value)) (hs : ∀ kv ∈ s, kv.1 ≠ "_paths") :
    pathsOf d = [] ∧ load cwd' d s false = .ok (loadVerbatim d s) := by
  have hp : pathsOf d = [] := by
    simp only [List.mem_cons, List.not_mem_nil, or_false] at hd
    rcases hd with rfl | rfl | rfl | rfl <;> rfl
  refine ⟨hp, ?_⟩
  unfold load
  rw [loadLoop_eq_verbatim hp hs]
  rfl

/-- C2 witness: the amended statement at a concrete section and
override. -/
theorem sections_have_no_path_typed_settings_witness :
    pathsOf monitoringInit = [] ∧
      load { isAbs := true, parts := ["w"] } monitoringInit
        [("enabled", Value.vBool true)] false
        = .ok (loadVerbatim monitoringInit [("enabled", Value.vBool true)]) :=
  sections_have_no_path_typed_settings
    { isAbs := true, parts := ["h"] } { isAbs := true, parts := ["c"] }
    { isAbs := true, parts := ["w"] } monitoringInit (by decide)
    [("enabled", Value.vBool true)] (by decide)

/-! ## C3: declared defaults are present before any load -/

/-- C3: before any `load`, every declared setting of every section reads
back its declared default; in particular `execution.plugin == "Linear"`
and `monitoring.enabled == False`. -/
theorem sections_default_values (home cwd : PyPath) :
    (∀ kv ∈ loggingSettings home, lookupD (loggingInit home) kv.1 = some kv.2) ∧
    (∀ kv ∈ executionSettings home, lookupD (executionInit home cwd) kv.1 = some kv.2) ∧
    (∀ kv ∈ monitoringSettings, lookupD monitoringInit kv.1 = some kv.2) ∧
    (∀ kv ∈ checkSettings, lookupD checkInit kv.1 = some kv.2) ∧
    lookupD (executionInit home cwd) "plugin" = some (Value.vStr "Linear") ∧
    lookupD monitoringInit "enabled" = some (Value.vBool false) := by
  refine ⟨?_, ?_, ?_, ?_, rfl, rfl⟩
  · intro kv hkv
    simp only [loggingSettings, List.mem_cons, List.not_mem_nil, or_false] at hkv
    rcases hkv with rfl | rfl | rfl | rfl | rfl | rfl | rfl <;> rfl
  · intro kv hkv
    simp only [executionSettings, List.mem_cons, List.not_mem_nil, or_false] at hkv
    rcases hkv with rfl | rfl | rfl | rfl | rfl | rfl | rfl | rfl | rfl | rfl | rfl |
      rfl | rfl | rfl | rfl | rfl | rfl | rfl | rfl | rfl | rfl | rfl <;> rfl
  · intro kv hkv
    simp only [monitoringSettings, List.mem_cons, List.not_mem_nil, or_false] at hkv
    rcases hkv with rfl | rfl | rfl <;> rfl
  · intro kv hkv
    simp only [checkSettings, List.mem_cons, List.not_mem_nil, or_false] at hkv
    rcases hkv with rfl
    rfl

/-- C3 witness: a concrete environment and a concrete declared
setting. -/
theorem sections_default_values_witness :
    lookupD (loggingInit { isAbs := true, parts := ["h"] }) "log_rotate"
      = some (Value.vInt 4) :=
  (sections_default_values { isAbs := true, parts := ["h"] }
      { isAbs := true, parts := ["c"] }).1
    ("log_rotate", Value.vInt 4) (by decide)

/-! ## C4: unknown override keys are silently dropped -/

theorem loadLoop_all_unknown {cwd : PyPath} {d : Dict} :
    ∀ {s : List (String × Value)},
      (∀ kv ∈ s, hasattrD d kv.1 = false ∧ kv.1 ∉ pathsOf d) →
      loadLoop cwd d s = .ok d := by
  intro s
  induction s with
  | nil => intro _; rfl
  | cons kv rest ih =>
    intro h
    obtain ⟨k1, v1⟩ := kv
    have h1 := h (k1, v1) (List.mem_cons_self _ _)
    have hstep : loadStep cwd d k1 v1 = .ok d := by
      unfold loadStep
      by_cases hv : v1 = Value.vNone
      · rw [if_pos hv]
      · rw [if_neg hv, if_neg h1.2, if_neg (by simp [h1.1])]
    simp only [loadLoop, hstep]
    exact ih (fun kv hkv => h kv (List.mem_cons_of_mem _ hkv))

/-- C4: an override dictionary whose keys the section neither declares
(`hasattr` is false) nor lists as path-typed leaves the section's state
entirely unchanged, and `load` raises no error.  (The section has not
been given a data-valued `init` attribute, which is true of every
section the module ever builds.) -/
theorem load_unknown_keys_silently_dropped (cwd : PyPath) (d : Dict)
    (s : List (String × Value))
    (hinit : lookupD d "init" = none)
    (h : ∀ kv ∈ s, hasattrD d kv.1 = false ∧ kv.1 ∉ pathsOf d) :
    load cwd d s true = .ok d := by
  unfold load
  rw [loadLoop_all_unknown h]
  simp [runInit, hinit]

/-- C4 witness: an unknown key against the monitoring section. -/
theorem load_unknown_keys_silently_dropped_witness :
    load { isAbs := true, parts := ["w"] } monitoringInit
      [("unknown_key", Value.vStr "v")] true = .ok monitoringInit :=
  load_unknown_keys_silently_dropped _ _ _ rfl (by decide)

/-! ## C5: a None override value never clears a setting -/

/-- C5: `load({k: None})` leaves the declared setting `k` (and the whole
section state) unchanged and raises no error. -/
theorem load_none_value_ignored (cwd : PyPath) (d : Dict) (k : String) (v0 : Value)
    (hinit : lookupD d "init" = none) (hk : lookupD d k = some v0) :
    load cwd d [(k, Value.vNone)] true = .ok d ∧ lookupD d k = some v0 := by
  refine ⟨?_, hk⟩
  have hloop : loadLoop cwd d [(k, Value.vNone)] = .ok d := by
    simp [loadLoop, loadStep]
  unfold load
  rw [hloop]
  simp [runInit, hinit]

/-- C5 witness: a `None` override for `check.interval`. -/
theorem load_none_value_ignored_witness :
    load { isAbs := true, parts := ["w"] } checkInit
        [("interval", Value.vNone)] true = .ok checkInit ∧
      lookupD checkInit "interval" = some (Value.vInt 1209600) :=
  load_none_value_ignored _ _ _ _ rfl rfl

/-! ## C6: characterization of `get` -/

/-- C6: `get()` returns a mapping that contains exactly the section's
currently-set attributes that are non-private (no leading underscore),
non-callable and not `None`, with path-typed attributes rendered as
plain strings via `str` and everything else passed through unchanged. -/
theorem get_returns_public_set_attributes (d : Dict) (hnd : NodupKeys d)
    (k : String) (w : Value) :
    lookupD (get d) k = some w ↔
      ∃ v, lookupD d k = some v ∧ strStartsWith k "_" = false ∧
        v ≠ Value.vNone ∧ callableVal v = false ∧
        w = (if k ∈ pathsOf d then Value.vStr (pyStr v) else v) := by
  constructor
  · intro h
    cases hd : lookupD d k with
    | none => rw [get, lookupD_getAux_of_none hd] at h; cases h
    | some v =>
      by_cases hu : strStartsWith k "_" = true
      · rw [get, lookupD_getAux_underscore hu] at h; cases h
      · have hu' : strStartsWith k "_" = false := by simpa using hu
        by_cases hv : v = Value.vNone
        · subst hv
          rw [get, lookupD_getAux_of_vNone hnd hd] at h; cases h
        · rw [get, lookupD_getAux_of_some hnd hd hu' hv] at h
          exact ⟨v, rfl, hu', hv, rfl, (Option.some.inj h).symm⟩
  · rintro ⟨v, hd, hu, hv, _, rfl⟩
    rw [get]
    exact lookupD_getAux_of_some hnd hd hu hv

/-- C6 witness: a concrete section state with a private attribute, a
`None`-valued attribute and a path-typed attribute, evaluated through
the characterization. -/
theorem get_returns_public_set_attributes_witness :
    lookupD
        (get [("_cwd", Value.vPath { isAbs := true, parts := ["c"] }),
              ("_paths", Value.vStrs ["workdir"]),
              ("gone", Value.vNone),
              ("workdir", Value.vPath { isAbs := true, parts := ["w"] })])
        "workdir" = some (Value.vStr "/w") :=
  (get_returns_public_set_attributes
      [("_cwd", Value.vPath { isAbs := true, parts := ["c"] }),
       ("_paths", Value.vStrs ["workdir"]),
       ("gone", Value.vNone),
       ("workdir", Value.vPath { isAbs := true, parts := ["w"] })]
      (by decide) "workdir" (Value.vStr "/w")).mpr
    ⟨Value.vPath { isAbs := true, parts := ["w"] }, by decide, by decide,
     by decide, by decide, by decide⟩

/-! ## C7: the startup merge applies file pairs directly -/

/-- C7: merging a recognized section's key/value pairs from the settings
file assigns every pair verbatim onto the section — unknown keys become
new attributes, path-typed keys get no conversion — and touches nothing
else. -/
theorem merge_applies_pairs_directly (d : Dict) (s : List (String × Value))
    (hnd : NodupKeys s) :
    (∀ kv ∈ s, lookupD (mergeSettings d s) kv.1 = some kv.2) ∧
    (∀ k : String, (∀ kv ∈ s, kv.1 ≠ k) →
      lookupD (mergeSettings d s) k = lookupD d k) := by
  constructor
  · intro kv hkv
    obtain ⟨k1, v1⟩ := kv
    exact lookupD_mergeSettings_mem hnd hkv
  · intro k hk
    exact lookupD_mergeSettings_of_not_mem hk

/-- C7 witness: a file table carrying an undeclared key and a path-typed
key is applied verbatim to the monitoring section. -/
theorem merge_applies_pairs_directly_witness :
    lookupD (mergeSettings monitoringInit
        [("unknown_file_key", Value.vStr "kept"),
         ("enabled", Value.vStr "relative/path")])
      "unknown_file_key" = some (Value.vStr "kept") :=
  (merge_applies_pairs_directly monitoringInit
      [("unknown_file_key", Value.vStr "kept"),
       ("enabled", Value.vStr "relative/path")]
      (by decide)).1
    ("unknown_file_key", Value.vStr "kept") (by decide)

/-! ## C8: unresolvable top-level names abort the merge -/

/-- C8 counterexample: as literally stated ("a top-level section name
that is not one of the four declared sections fails with a fatal lookup
error for every such name"), the claim fails — `os` is not a section,
yet `getattr(sys.modules[__name__], "os")` resolves to the imported
module and the merge completes without any lookup error. -/
theorem merge_foreign_module_binding_no_error :
    mergeDoc
        (initConfig { isAbs := true, parts := ["h"] }
          { isAbs := true, parts := ["c"] })
        [("os", [("environ_hack", Value.vStr "x")])]
      = .ok (initConfig { isAbs := true, parts := ["h"] }
          { isAbs := true, parts := ["c"] }) := rfl

/-- C8 (amended): the startup merge fails with a fatal lookup error for
every top-level name the config module does not bind; top-level names
that are module attributes without being sections (such as `os`, `sys`,
`Path`, `loads`, `_Config`, `_nipype_home`) resolve successfully, and
their tables are applied to that foreign binding instead of raising. -/
theorem merge_unknown_section_fatal (cs : ConfigState)
    (doc : List (String × Dict))
    (h : ∃ p ∈ doc, moduleAttr p.1 = none) :
    ∃ e, mergeDoc cs doc = .error e := by
  induction doc generalizing cs with
  | nil =>
    rcases h with ⟨p, hp, _⟩
    cases hp
  | cons nd rest ih =>
    obtain ⟨name, settings⟩ := nd
    rcases h with ⟨p, hp, hattr⟩
    simp only [mergeDoc]
    cases hma : moduleAttr name with
    | none => exact ⟨_, rfl⟩
    | some b =>
      have hrest : ∃ p ∈ rest, moduleAttr p.1 = none := by
        rcases List.mem_cons.mp hp with h1 | h1
        · exfalso
          rw [h1] at hattr
          simp only at hattr
          rw [hattr] at hma
          cases hma
        · exact ⟨p, h1, hattr⟩
      cases b <;> exact ih _ hrest

/-- C8 witness: a document with a genuinely unbound top-level name. -/
theorem merge_unknown_section_fatal_witness :
    ∃ e, mergeDoc
        (initConfig { isAbs := true, parts := ["h"] }
          { isAbs := true, parts := ["c"] })
        [("logging", [("log_rotate", Value.vInt 2)]),
         ("bogus_section", [])]
      = .error e :=
  merge_unknown_section_fatal _
    [("logging", [("log_rotate", Value.vInt 2)]), ("bogus_section", [])]
    ⟨("bogus_section", []), by decide, by decide⟩

/-! ## C9: serialize, reset, re-merge round-trips `get` -/

theorem reachable_nodupKeys {d0 d : Dict} (h0 : NodupKeys d0)
    (h : Reachable d0 d) : NodupKeys d := by
  induction h with
  | refl => exact h0
  | load cwd da d' s hr hok ih => exact nodupKeys_loadLoop ih hok
  | merge da s hr hs ih => exact nodupKeys_mergeSettings ih

theorem reachable_valsNoNone {d0 d : Dict}
    (h0 : ∀ kv ∈ d0, kv.2 ≠ Value.vNone) (h : Reachable d0 d) :
    ∀ kv ∈ d, kv.2 ≠ Value.vNone := by
  induction h with
  | refl => exact h0
  | load cwd da d' s hr hok ih => exact valsNoNone_loadLoop ih hok
  | merge da s hr hs ih => exact valsNoNone_mergeSettings ih hs

theorem reachable_isSome {d0 d : Dict} (k : String) (h : Reachable d0 d)
    (h0 : (lookupD d0 k).isSome) : (lookupD d k).isSome := by
  induction h with
  | refl => exact h0
  | load cwd da d' s hr hok ih => exact isSome_loadLoop ih hok
  | merge da s hr hs ih => exact isSome_mergeSettings ih

theorem nodupKeys_loggingInit (home : PyPath) : NodupKeys (loggingInit home) := by
  have h : keysD (loggingInit home) =
      ["__module__", "__qualname__", "__doc__", "interface_level",
       "log_directory", "log_rotate", "log_size", "log_to_file",
       "utils_level", "workflow_level"] := rfl
  unfold NodupKeys
  rw [h]
  decide

theorem nodupKeys_executionInit (home cwd : PyPath) :
    NodupKeys (executionInit home cwd) := by
  have h : keysD (executionInit home cwd) =
      ["__module__", "__qualname__", "__doc__", "check_version",
       "crashdump_dir", "crashfile_format", "create_report", "hash_method",
       "job_finished_timeout", "keep_inputs", "local_hash_check",
       "matplotlib_backend", "parameterize_dirs", "plugin",
       "poll_sleep_duration", "remove_node_directories",
       "remove_unnecessary_outputs", "single_thread_matlab",
       "stop_on_first_crash", "stop_on_first_rerun",
       "stop_on_unknown_version", "try_hard_link_datasink",
       "use_relative_paths", "write_provenance", "xvfb_max_wait",
       "_cwd"] := rfl
  unfold NodupKeys
  rw [h]
  decide

theorem valsNoNone_loggingInit (home : PyPath) :
    ∀ kv ∈ loggingInit home, kv.2 ≠ Value.vNone := by
  intro kv hkv
  simp only [loggingInit, dunderSlots, loggingSettings, List.append_eq,
    List.cons_append, List.nil_append, List.mem_cons, List.not_mem_nil,
    or_false] at hkv
  rcases hkv with rfl | rfl | rfl | rfl | rfl | rfl | rfl | rfl | rfl | rfl <;>
    simp

theorem valsNoNone_executionInit (home cwd : PyPath) :
    ∀ kv ∈ executionInit home cwd, kv.2 ≠ Value.vNone := by
  intro kv hkv
  simp only [executionInit, dunderSlots, executionSettings, List.append_eq,
    List.cons_append, List.nil_append, List.mem_cons, List.not_mem_nil,
    or_false] at hkv
  rcases hkv with rfl | rfl | rfl | rfl | rfl | rfl | rfl | rfl | rfl | rfl |
    rfl | rfl | rfl | rfl | rfl | rfl | rfl | rfl | rfl | rfl | rfl | rfl |
    rfl | rfl | rfl | rfl <;> simp

theorem valsNoNone_monitoringInit :
    ∀ kv ∈ monitoringInit, kv.2 ≠ Value.vNone := by
  intro kv hkv
  simp only [monitoringInit, dunderSlots, monitoringSettings, List.append_eq,
    List.cons_append, List.nil_append, List.mem_cons, List.not_mem_nil,
    or_false] at hkv
  rcases hkv with rfl | rfl | rfl | rfl | rfl | rfl <;> simp

theorem valsNoNone_checkInit :
    ∀ kv ∈ checkInit, kv.2 ≠ Value.vNone := by
  intro kv hkv
  simp only [checkInit, dunderSlots, checkSettings, List.append_eq,
    List.cons_append, List.nil_append, List.mem_cons, List.not_mem_nil,
    or_false] at hkv
  rcases hkv with rfl | rfl | rfl | rfl <;> simp

/-- The round trip for one section: serialize the current state through
`get`, reset the section to its declared defaults, merge the serialized
table back in the direct settings-file way, and `get` reads back
unchanged. -/
theorem roundtrip_section (initD d : Dict)
    (hnd0 : NodupKeys initD) (hp0 : lookupD initD "_paths" = none)
    (hnd : NodupKeys d) (hnone : ∀ kv ∈ d, kv.2 ≠ Value.vNone)
    (hkeys : ∀ k : String, (lookupD initD k).isSome → (lookupD d k).isSome) :
    ∀ k : String,
      lookupD (get (mergeSettings initD (get d))) k = lookupD (get d) k := by
  intro k
  have hgnp : ∀ kv ∈ get d, kv.1 ≠ "_paths" := by
    intro kv hkv hkk
    obtain ⟨k1, v1⟩ := kv
    rcases mem_getAux hkv with ⟨v, _, _, hu, _⟩
    simp only at hkk
    rw [hkk] at hu
    exact absurd hu (by decide)
  have hgnd : NodupKeys (get d) := nodupKeys_getAux hnd
  have hpm : pathsOf (mergeSettings initD (get d)) = [] := by
    unfold pathsOf
    rw [lookupD_mergeSettings_of_not_mem hgnp, hp0]
  have hmnd : NodupKeys (mergeSettings initD (get d)) :=
    nodupKeys_mergeSettings hnd0
  by_cases hu : strStartsWith k "_" = true
  · rw [get, lookupD_getAux_underscore hu, get, lookupD_getAux_underscore hu]
  · have hu' : strStartsWith k "_" = false := by simpa using hu
    cases hgk : lookupD (get d) k with
    | some w =>
      have hmem : (k, w) ∈ get d := lookupD_mem hgk
      have hml : lookupD (mergeSettings initD (get d)) k = some w :=
        lookupD_mergeSettings_mem hgnd hmem
      have hwn : w ≠ Value.vNone := lookupD_get_ne_vNone hgk
      rw [get, lookupD_getAux_of_some hmnd hml hu' hwn, hpm]
      simp
    | none =>
      have hnm : ∀ kv ∈ get d, kv.1 ≠ k :=
        fun kv hkv => (lookupD_eq_none (get d) k).mp hgk kv hkv
      have hml : lookupD (mergeSettings initD (get d)) k = lookupD initD k :=
        lookupD_mergeSettings_of_not_mem hnm
      cases hik : lookupD initD k with
      | none =>
        rw [get, lookupD_getAux_of_none (by rw [hml, hik])]
      | some v0 =>
        exfalso
        have hds : (lookupD d k).isSome := hkeys k (by rw [hik]; rfl)
        obtain ⟨u, hdu⟩ := Option.isSome_iff_exists.mp hds
        have hun : u ≠ Value.vNone := hnone (k, u) (lookupD_mem hdu)
        have hsome := lookupD_getAux_of_some (P := pathsOf d) hnd hdu hu' hun
        rw [get, hsome] at hgk
        cases hgk

/-- C9: from any state each section can reach through the registry's
entry points, serializing all four sections with `get` (as `__str__`
does), resetting to the declared defaults and re-merging the serialized
document yields `get()` output identical to the pre-reset snapshot. -/
theorem roundtrip_all_sections (home cwd : PyPath) (cs : ConfigState)
    (h1 : Reachable (loggingInit home) cs.logging)
    (h2 : Reachable (executionInit home cwd) cs.execution)
    (h3 : Reachable monitoringInit cs.monitoring)
    (h4 : Reachable checkInit cs.check) :
    ∃ cs' : ConfigState,
      mergeDoc (initConfig home cwd) (serialize cs) = .ok cs' ∧
      (∀ k, lookupD (get cs'.logging) k = lookupD (get cs.logging) k) ∧
      (∀ k, lookupD (get cs'.execution) k = lookupD (get cs.execution) k) ∧
      (∀ k, lookupD (get cs'.monitoring) k = lookupD (get cs.monitoring) k) ∧
      (∀ k, lookupD (get cs'.check) k = lookupD (get cs.check) k) := by
  refine ⟨{ logging := mergeSettings (loggingInit home) (get cs.logging)
            execution := mergeSettings (executionInit home cwd) (get cs.execution)
            monitoring := mergeSettings monitoringInit (get cs.monitoring)
            check := mergeSettings checkInit (get cs.check) },
    rfl, ?_, ?_, ?_, ?_⟩
  · exact roundtrip_section _ _ (nodupKeys_loggingInit home) rfl
      (reachable_nodupKeys (nodupKeys_loggingInit home) h1)
      (reachable_valsNoNone (valsNoNone_loggingInit home) h1)
      (fun k hk => reachable_isSome k h1 hk)
  · exact roundtrip_section _ _ (nodupKeys_executionInit home cwd) rfl
      (reachable_nodupKeys (nodupKeys_executionInit home cwd) h2)
      (reachable_valsNoNone (valsNoNone_executionInit home cwd) h2)
      (fun k hk => reachable_isSome k h2 hk)
  · exact roundtrip_section _ _ (by decide) rfl
      (reachable_nodupKeys (by decide) h3)
      (reachable_valsNoNone valsNoNone_monitoringInit h3)
      (fun k hk => reachable_isSome k h3 hk)
  · exact roundtrip_section _ _ (by decide) rfl
      (reachable_nodupKeys (by decide) h4)
      (reachable_valsNoNone valsNoNone_checkInit h4)
      (fun k hk => reachable_isSome k h4 hk)

/-- C9 witness: the round trip at the freshly-declared state in a
concrete environment. -/
theorem roundtrip_all_sections_witness :
    ∃ cs' : ConfigState,
      mergeDoc
          (initConfig { isAbs := true, parts := ["h"] }
            { isAbs := true, parts := ["c"] })
          (serialize (initConfig { isAbs := true, parts := ["h"] }
            { isAbs := true, parts := ["c"] })) = .ok cs' ∧
      (∀ k, lookupD (get cs'.logging) k
        = lookupD (get (initConfig { isAbs := true, parts := ["h"] }
            { isAbs := true, parts := ["c"] }).logging) k) ∧
      (∀ k, lookupD (get cs'.execution) k
        = lookupD (get (initConfig { isAbs := true, parts := ["h"] }
            { isAbs := true, parts := ["c"] }).execution) k) ∧
      (∀ k, lookupD (get cs'.monitoring) k
        = lookupD (get (initConfig { isAbs := true, parts := ["h"] }
            { isAbs := true, parts := ["c"] }).monitoring) k) ∧
      (∀ k, lookupD (get cs'.check) k
        = lookupD (get (initConfig { isAbs := true, parts := ["h"] }
            { isAbs := true, parts := ["c"] }).check) k) :=
  roundtrip_all_sections { isAbs := true, parts := ["h"] }
    { isAbs := true, parts := ["c"] }
    (initConfig { isAbs := true, parts := ["h"] }
      { isAbs := true, parts := ["c"] })
    .refl .refl .refl .refl

/-! ## C10: logging bootstrap replaces rather than stacks -/

theorem update_ok_inv {lg : Dict} {st st' : LogState}
    (h : update lg st = .ok st') :
    (∀ n, levelAttr lg "workflow_level" = .ok n → st'.workflowLevel = n) ∧
    ((∃ v, attrOf lg "log_to_file" = .ok v ∧ truthy v = true) →
      st'.rootHandlers.countP (fun hh => hh.isRotating) = 1) := by
  unfold update at h
  split at h
  · cases h
  · rename_i wl hwl2
    split at h
    · cases h
    · rename_i ul hul2
      split at h
      · cases h
      · rename_i il hil2
        split at h
        · cases h
        · rename_i ltf hltf2
          split at h
          · rename_i htr
            split at h
            · cases h
            · rename_i dv hdv2
              split at h
              · cases h
              · rename_i dirp hdp2
                split at h
                · cases h
                · rename_i szv hsz2
                  split at h
                  · cases h
                  · rename_i rotv hrot2
                    cases Except.ok.inj h
                    constructor
                    · intro n hn
                      rw [hwl2] at hn
                      cases Except.ok.inj hn
                      rfl
                    · intro _
                      rfl
          · rename_i htr
            cases Except.ok.inj h
            constructor
            · intro n hn
              rw [hwl2] at hn
              cases Except.ok.inj hn
              rfl
            · rintro ⟨v, hv, htv⟩
              rw [hltf2] at hv
              cases Except.ok.inj hv
              exact absurd htv htr

/-- C10: after two successful `update()` calls under two `logging`
states, the `nipype.workflow` sub-logger severity is the one named by
the second state's `workflow_level`, and — with `log_to_file` truthy in
both states — exactly one rotating-file handler is attached to the root
logger: `basicConfig(force=True)` replaces the prior handler state
instead of stacking it. -/
theorem update_twice_second_level_wins (lg1 lg2 : Dict)
    (st0 st1 st2 : LogState) (s2 : String) (n2 : Nat)
    (hw : lookupD lg2 "workflow_level" = some (Value.vStr s2))
    (hn : getLevelName s2 = some n2)
    (h1 : update lg1 st0 = .ok st1)
    (h2 : update lg2 st1 = .ok st2)
    (hf1 : ∃ v, lookupD lg1 "log_to_file" = some v ∧ truthy v = true)
    (hf2 : ∃ v, lookupD lg2 "log_to_file" = some v ∧ truthy v = true) :
    st2.workflowLevel = n2 ∧
      st2.rootHandlers.countP (fun hh => hh.isRotating) = 1 := by
  have hwl : levelAttr lg2 "workflow_level" = .ok n2 := by
    unfold levelAttr attrOf
    rw [hw]
    simp [levelOfValue, hn]
  obtain ⟨inv1, inv2⟩ := update_ok_inv h2
  refine ⟨inv1 n2 hwl, inv2 ?_⟩
  obtain ⟨v, hv, htv⟩ := hf2
  exact ⟨v, by unfold attrOf; rw [hv], htv⟩

/-- C10 witness: two concrete `update()` calls, `INFO` then `DEBUG`,
with file logging enabled in both. -/
theorem update_twice_second_level_wins_witness :
    ({ captureWarnings := true
       rootLevel := 20
       rootHandlers := [Handler.stream,
         Handler.rotatingFile "/logs/nipype.log"
           (Value.vInt 16384000) (Value.vInt 4)]
       workflowLevel := 10
       utilsLevel := 20
       interfaceLevel := 20 } : LogState).workflowLevel = 10 ∧
      ({ captureWarnings := true
         rootLevel := 20
         rootHandlers := [Handler.stream,
           Handler.rotatingFile "/logs/nipype.log"
             (Value.vInt 16384000) (Value.vInt 4)]
         workflowLevel := 10
         utilsLevel := 20
         interfaceLevel := 20 } : LogState).rootHandlers.countP
        (fun hh => hh.isRotating) = 1 :=
  update_twice_second_level_wins
    [("workflow_level", Value.vStr "INFO"), ("utils_level", Value.vStr "INFO"),
     ("interface_level", Value.vStr "INFO"), ("log_to_file", Value.vBool true),
     ("log_directory", Value.vStr "/logs"), ("log_size", Value.vInt 16384000),
     ("log_rotate", Value.vInt 4)]
    [("workflow_level", Value.vStr "DEBUG"), ("utils_level", Value.vStr "INFO"),
     ("interface_level", Value.vStr "INFO"), ("log_to_file", Value.vBool true),
     ("log_directory", Value.vStr "/logs"), ("log_size", Value.vInt 16384000),
     ("log_rotate", Value.vInt 4)]
    { captureWarnings := false, rootLevel := 0, rootHandlers := [],
      workflowLevel := 0, utilsLevel := 0, interfaceLevel := 0 }
    { captureWarnings := true, rootLevel := 20,
      rootHandlers := [Handler.stream,
        Handler.rotatingFile "/logs/nipype.log"
          (Value.vInt 16384000) (Value.vInt 4)],
      workflowLevel := 20, utilsLevel := 20, interfaceLevel := 20 }
    { captureWarnings := true, rootLevel := 20,
      rootHandlers := [Handler.stream,
        Handler.rotatingFile "/logs/nipype.log"
          (Value.vInt 16384000) (Value.vInt 4)],
      workflowLevel := 10, utilsLevel := 20, interfaceLevel := 20 }
    "DEBUG" 10 rfl rfl rfl rfl
    ⟨Value.vBool true, rfl, rfl⟩ ⟨Value.vBool true, rfl, rfl⟩

end NipypeConfig
